import Mathlib

/-!
Shallow embedding of the pair-scanning core of the repository
(`pairs/services/scan.py`, `longshort/services/metrics.py`, and the hunt
gate of `pairs/views.py`), with theorems checking the natural-language
specification against it.

Numeric values flowing through the scanner are embedded in a generic
`LinearOrderedField` (instantiated at `ℚ` for concrete evaluation and at
`ℝ` where the metrics engine's logarithms are involved).  Python `None`
becomes `Option`, dicts become structures, exceptions are modelled as
explicit outcome values where the source catches them.
-/

namespace PairScan

/-- Default window grid, `pairs/constants.py` `DEFAULT_WINDOWS`. -/
def DEFAULT_WINDOWS : List ℤ := [80, 90, 100, 110, 120, 130, 140, 150, 160, 170, 180]

/-- Base window default, `pairs/constants.py` `DEFAULT_BASE_WINDOW`. -/
def DEFAULT_BASE_WINDOW : ℤ := 180

/-- Approval thresholds, the `Thresholds` dataclass of `pairs/services/scan.py`.
`half_life_max = none` disables the half-life filter. -/
structure Thresholds (α : Type) where
  adf_min : α
  zscore_abs_min : α
  half_life_max : Option α
  deriving DecidableEq, Repr

/-- Default `Thresholds()`: `adf_min = 95.0`, `zscore_abs_min = 2.0`,
`half_life_max = 5.0` (kept, since `5.0 > 0`). -/
def defaultThresholds (α : Type) [LinearOrderedField α] : Thresholds α :=
  { adf_min := 95, zscore_abs_min := 2, half_life_max := some 5 }

/-- The dict returned by `compute_pair_window_metrics`
(`longshort/services/metrics.py`): any metric may be absent.  A key that is
missing from the Python dict and a key bound to `None` both read back as
`None` via `dict.get`, so both are `none` here. -/
structure MetricsDict (α : Type) where
  adf_pvalue : Option α := none
  beta : Option α := none
  zscore : Option α := none
  half_life : Option α := none
  corr30 : Option α := none
  corr60 : Option α := none
  n_samples : Option ℤ := none
  deriving DecidableEq, Repr

/-- Which message string `scan_pair_windows` / `_compute_base_for_pair`
attached to a status.  Constructors keep the numeric values that the Python
f-strings interpolate; `.empty` is the initial `message = ""`,
`.amostraInsuficiente` is the literal `"Amostra insuficiente (N<60)"`
(the message that mentions the sample-size floor). -/
inductive ScanMessage (α : Type) where
  | empty
  | amostraInsuficiente
  | adfIndisponivel
  | adfBelowMin (pct min : α)
  | zscoreIndisponivel
  | zscoreBelowMin (min : α)
  | halfLifeIndisponivel
  | halfLifeAboveMax (hl max : α)
  | okMsg
  | erro (txt : String)
  deriving DecidableEq, Repr

/-- The guard `samples_int is not None and samples_int < 60` shared by
`scan_pair_windows` and `_compute_base_for_pair`. -/
def samplesTooSmall (n? : Option ℤ) : Bool :=
  match n? with
  | some n => decide (n < 60)
  | none => false

/-- One row of the grid, the `WindowRow` dataclass of `pairs/services/scan.py`. -/
structure WindowRow (α : Type) where
  window : ℤ
  adf_pct : Option α
  adf_pvalue : Option α
  beta : Option α
  zscore : Option α
  half_life : Option α
  corr30 : Option α
  corr60 : Option α
  status : String
  message : ScanMessage α
  deriving DecidableEq, Repr

/-- The per-window body of `scan_pair_windows` (scan.py lines 166-236), given
the metrics dict the engine returned for this window: derive
`adf_pct = (1 - adf_pvalue) * 100` and run the approval chain.  The embedding
reproduces the source exactly, including the fact that the final
`else: status = "ok"` is attached to the `elif thresholds.half_life_max is
not None:` arm — so when a half-life ceiling is configured and every check
passes, `status` keeps its initial value `"pendente"` with an empty message. -/
def evalWindowRow {α : Type} [LinearOrderedField α] (th : Thresholds α)
    (w : ℤ) (m : MetricsDict α) : WindowRow α :=
  let adf_pct : Option α := m.adf_pvalue.map (fun p => (1 - p) * 100)
  let sm : String × ScanMessage α :=
    if samplesTooSmall m.n_samples then
      ("reprovado", .amostraInsuficiente)
    else
      match adf_pct with
      | none => ("reprovado", .adfIndisponivel)
      | some a =>
        if a < th.adf_min then ("reprovado", .adfBelowMin a th.adf_min)
        else
          match m.zscore with
          | none => ("reprovado", .zscoreIndisponivel)
          | some z =>
            if |z| < th.zscore_abs_min then ("reprovado", .zscoreBelowMin th.zscore_abs_min)
            else
              match th.half_life_max with
              | some hmax =>
                (match m.half_life with
                 | none => ("reprovado", .halfLifeIndisponivel)
                 | some hl =>
                   if hl > hmax then ("reprovado", .halfLifeAboveMax hl hmax)
                   else ("pendente", .empty))
              | none => ("ok", .okMsg)
  { window := w
    adf_pct := adf_pct
    adf_pvalue := m.adf_pvalue
    beta := m.beta
    zscore := m.zscore
    half_life := m.half_life
    corr30 := m.corr30
    corr60 := m.corr60
    status := sm.1
    message := sm.2 }

/-- The payload `_compute_base_for_pair` builds on approval (scan.py lines
327-338). -/
structure BasePayload (α : Type) where
  window : ℤ
  adf_pvalue : Option α
  adf_pct : Option α
  beta : Option α
  zscore : Option α
  half_life : Option α
  corr30 : Option α
  corr60 : Option α
  n_samples : Option ℤ
  status : String
  deriving DecidableEq, Repr

/-- The approval decision `_compute_base_for_pair` (scan.py lines 277-341) after the metrics engine
returned `m`: the same check chain as `evalWindowRow`, but here every check
passing really returns approval `(True, payload, "OK")`.  Rejections return
`(False, {}, message)`, i.e. `(false, none, msg)`. -/
def computeBaseForPair {α : Type} [LinearOrderedField α] (th : Thresholds α)
    (m : MetricsDict α) (window : ℤ) : Bool × Option (BasePayload α) × ScanMessage α :=
  let adf_pct : Option α := m.adf_pvalue.map (fun p => (1 - p) * 100)
  if samplesTooSmall m.n_samples then
    (false, none, .amostraInsuficiente)
  else
    match adf_pct with
    | none => (false, none, .adfIndisponivel)
    | some a =>
      if a < th.adf_min then (false, none, .adfBelowMin a th.adf_min)
      else
        match m.zscore with
        | none => (false, none, .zscoreIndisponivel)
        | some z =>
          if |z| < th.zscore_abs_min then (false, none, .zscoreBelowMin th.zscore_abs_min)
          else
            let hlCheck : Option (Bool × Option (BasePayload α) × ScanMessage α) :=
              match th.half_life_max with
              | some hmax =>
                (match m.half_life with
                 | none => some (false, none, .halfLifeIndisponivel)
                 | some hl =>
                   if hl > hmax then some (false, none, .halfLifeAboveMax hl hmax)
                   else none)
              | none => none
            match hlCheck with
            | some rej => rej
            | none =>
              (true,
               some { window := window
                      adf_pvalue := m.adf_pvalue
                      adf_pct := adf_pct
                      beta := m.beta
                      zscore := m.zscore
                      half_life := m.half_life
                      corr30 := m.corr30
                      corr60 := m.corr60
                      n_samples := m.n_samples
                      status := "ok" },
               .okMsg)

/-- Python's `x or d` on an optional float: `None` and the falsy `0.0` both
fall back to the default.  Used by `_tie_break` (`candidate.adf_pct or -1.0`,
`candidate.zscore or 0.0`, `candidate.beta or 0.0`). -/
def pyOr {α : Type} [LinearOrderedField α] (x : Option α) (d : α) : α :=
  match x with
  | none => d
  | some v => if v = 0 then d else v

/-- The ADF-percentage key `_tie_break` compares (`row.adf_pct or -1.0`). -/
def adfKey {α : Type} [LinearOrderedField α] (r : WindowRow α) : α :=
  pyOr r.adf_pct (-1)

/-- The z-score key `_tie_break` compares (`abs(row.zscore or 0.0)`). -/
def zKey {α : Type} [LinearOrderedField α] (r : WindowRow α) : α :=
  |pyOr r.zscore 0|

/-- The beta key `_tie_break` compares (`abs(row.beta or 0.0)`). -/
def betaKey {α : Type} [LinearOrderedField α] (r : WindowRow α) : α :=
  |pyOr r.beta 0|

/-- The selector `_tie_break` (scan.py lines 131-147): higher ADF% wins, then higher |Z|,
then lower |beta|; on a full tie the incumbent `best` is kept. -/
def tieBreak {α : Type} [LinearOrderedField α]
    (best cand : Option (WindowRow α)) : Option (WindowRow α) :=
  match cand with
  | none => best
  | some c =>
    match best with
    | none => some c
    | some b =>
      if adfKey c ≠ adfKey b then
        (if adfKey c > adfKey b then some c else some b)
      else if zKey c ≠ zKey b then
        (if zKey c > zKey b then some c else some b)
      else if betaKey c < betaKey b then some c else some b

/-- The `best` accumulation of `scan_pair_windows` (lines 238-239): fold
`_tie_break` over the rows, feeding only rows whose status is `"ok"`. -/
def bestRow {α : Type} [LinearOrderedField α]
    (rows : List (WindowRow α)) : Option (WindowRow α) :=
  rows.foldl (fun b r => if r.status = "ok" then tieBreak b (some r) else b) none

/-- The accumulation loop of `_resolve_windows` (scan.py lines 73-81): keep
positive values, drop duplicates, preserve order. -/
def resolveLoop : List ℤ → List ℤ → List ℤ
  | [], acc => acc
  | v :: rest, acc =>
    if v ≤ 0 ∨ v ∈ acc then resolveLoop rest acc else resolveLoop rest (acc ++ [v])

/-- The normaliser `_resolve_windows` (scan.py lines 58-85), with the per-user config case
folded into `none` (no user config in scope here): normalise the incoming
list, falling back to `DEFAULT_WINDOWS` when nothing survives. -/
def resolveWindows : Option (List ℤ) → List ℤ
  | some ws => let r := resolveLoop ws []; if r = [] then DEFAULT_WINDOWS else r
  | none => DEFAULT_WINDOWS

/-- The payload `scan_pair_windows` stores under `scan_cache["scan"]`
(scan.py lines 257-266). -/
structure ScanPayload (α : Type) where
  rows : List (WindowRow α)
  best_window : Option ℤ
  windows : List ℤ
  thresholds : Thresholds α
  deriving DecidableEq, Repr

/-- The value stored under `scan_cache["base"]`: either the full approval
payload of `_compute_base_for_pair` (status `"ok"`) or the rejection record
`{"window": w, "status": "reprovado", "message": msg}`. -/
inductive BaseCacheVal (α : Type) where
  | okVal (payload : BasePayload α)
  | reprovadoVal (window : ℤ) (message : ScanMessage α)
  deriving DecidableEq, Repr

/-- The pair's `scan_cache_json` dict.  The code only ever writes the keys
`"base"` and `"scan"`; `extra` stands for any other keys the dict might
carry, which no write below touches. -/
structure ScanCacheDict (α : Type) where
  base : Option (BaseCacheVal α) := none
  scan : Option (ScanPayload α) := none
  extra : List (String × String) := []
  deriving DecidableEq, Repr

/-- The columns of a persisted `Pair` record that this code reads or writes.
`rest` stands for every other column; the saves below use
`update_fields=["scan_cache_json", "scan_cached_at"]`, so `rest` (and
`left`/`right`) must come out untouched. -/
structure PairRecord (α : Type) where
  left : ℕ
  right : ℕ
  scan_cache_json : Option (ScanCacheDict α) := none
  scan_cached_at : Option ℕ := none
  rest : ℕ := 0
  deriving DecidableEq, Repr

/-- The write at scan.py lines 268-272: `sc = pair.scan_cache_json or {}`
(Python `or`: both `None` and the falsy empty dict give `{}`, and the empty
dict equals the default `ScanCacheDict` here), set `sc["scan"]`, refresh
`scan_cached_at`, save only those two fields. -/
def writeScan {α : Type} (p : PairRecord α) (payload : ScanPayload α)
    (now : ℕ) : PairRecord α :=
  let sc := p.scan_cache_json.getD {}
  { p with scan_cache_json := some { sc with scan := some payload }
           scan_cached_at := some now }

/-- The writes at scan.py lines 409-414 / 425-433 / 540-555: merge a value
under `scan_cache["base"]`, refresh the timestamp, save only those two
fields. -/
def writeBase {α : Type} (p : PairRecord α) (v : BaseCacheVal α)
    (now : ℕ) : PairRecord α :=
  let sc := p.scan_cache_json.getD {}
  { p with scan_cache_json := some { sc with base := some v }
           scan_cached_at := some now }

/-- The grid scanner `scan_pair_windows` (scan.py lines 150-274), with the metrics engine
abstracted to a per-window oracle `metricsOf`: build a row per resolved
window, fold the tie-break over the `"ok"` rows, persist the summary under
the `"scan"` cache key, and return `(rows, best, windows, updated pair)`. -/
def scanPairWindows {α : Type} [LinearOrderedField α]
    (metricsOf : ℤ → MetricsDict α) (windowsArg : Option (List ℤ))
    (th : Thresholds α) (pair : PairRecord α) (now : ℕ) :
    List (WindowRow α) × Option (WindowRow α) × List ℤ × PairRecord α :=
  let ws := resolveWindows windowsArg
  let rows := ws.map (fun w => evalWindowRow th w (metricsOf w))
  let best := bestRow rows
  let payload : ScanPayload α :=
    { rows := rows, best_window := best.map (·.window), windows := ws, thresholds := th }
  (rows, best, ws, writeScan pair payload now)

/-! ### Universe base builder (`build_pairs_base`, scan.py lines 344-453)

The pair store is an association list keyed by an abstract combination id.
Per combination the source either approves (persist the payload under
`"base"`), rejects (delete a just-created record, or overwrite `"base"` of a
pre-existing one), or hits an exception in the persistence layer after the
candidate was created — caught, stringified into the error list, the
just-created record rolled back, and the loop continues. -/

/-- Outcome of handling one combination, as observed by the persistence
logic of `build_pairs_base`. `raised` models an exception thrown inside the
per-combination `try` block (the metric computation itself never raises:
`_compute_base_for_pair` catches internally and returns a rejection). -/
inductive DecideOutcome (α : Type) where
  | approvedOut (payload : BasePayload α)
  | rejectedOut (message : ScanMessage α)
  | raisedOut (err : String)
  deriving DecidableEq, Repr

/-- Pair store: lookup by combination key. -/
def storeLookup {α : Type} (k : ℕ) (s : List (ℕ × PairRecord α)) :
    Option (PairRecord α) :=
  List.lookup k s

/-- Pair store: bind key `k` to `v` (replacing any previous binding). -/
def storeSet {α : Type} (k : ℕ) (v : PairRecord α)
    (s : List (ℕ × PairRecord α)) : List (ℕ × PairRecord α) :=
  (k, v) :: s.filter (fun p => p.1 ≠ k)

/-- The record `Pair(left=left, right=right)` freshly created (and saved)
when the combination was not yet known. -/
def freshPair (α : Type) (k : ℕ) : PairRecord α :=
  { left := k, right := k + 1 }

/-- Running state of `build_pairs_base`: the store plus the counters and
accumulators the function returns. -/
structure BuildState (α : Type) where
  store : List (ℕ × PairRecord α)
  processed : ℕ := 0
  created : ℕ := 0
  updated : ℕ := 0
  approved : List ℕ := []
  errors : List String := []
  deriving DecidableEq, Repr

/-- One iteration of the combination loop of `build_pairs_base` (scan.py
lines 377-443) for combination `k` with evaluation/persistence outcome
`outcome`:
* approval → merge the payload under `"base"`, append the id, bump
  `created` or `updated` depending on whether the record pre-existed;
* rejection of a just-created record → delete it (net store unchanged);
* rejection of a pre-existing record → overwrite `"base"` with the
  rejection record;
* exception → roll back the just-created record (net store unchanged) and
  append the stringified error. -/
def processCombo {α : Type} [LinearOrderedField α] (window : ℤ) (now : ℕ)
    (st : BuildState α) (k : ℕ) (outcome : DecideOutcome α) : BuildState α :=
  let st := { st with processed := st.processed + 1 }
  let existing := storeLookup k st.store
  match outcome with
  | .approvedOut payload =>
    let pair1 := writeBase (existing.getD (freshPair α k)) (.okVal payload) now
    { st with store := storeSet k pair1 st.store
              approved := st.approved ++ [k]
              created := st.created + (if existing.isSome then 0 else 1)
              updated := st.updated + (if existing.isSome then 1 else 0) }
  | .rejectedOut msg =>
    match existing with
    | none => st
    | some p =>
      { st with store := storeSet k (writeBase p (.reprovadoVal window msg) now) st.store }
  | .raisedOut e => { st with errors := st.errors ++ [e] }

/-- The whole combination loop of `build_pairs_base`, with the outcome of
each combination supplied by the oracle `decide`. -/
def buildPairsBase {α : Type} [LinearOrderedField α] (window : ℤ) (now : ℕ)
    (decide : ℕ → DecideOutcome α) (combos : List ℕ) (st0 : BuildState α) :
    BuildState α :=
  combos.foldl (fun st k => processCombo window now st k (decide k)) st0

/-! ### Hunt orchestrator (`hunt_pairs_until_found`, scan.py lines 456-592) -/

/-- The dict `hunt_pairs_until_found` returns. -/
structure HuntResult where
  found : Bool
  window : Option ℤ
  approved_ids : List ℕ
  errors : List String
  scanned_windows : List ℤ
  deriving DecidableEq, Repr

/-- Descending insertion of one element, for `sorted(l, reverse=True)`. -/
def insertDesc (x : ℤ) : List ℤ → List ℤ
  | [] => [x]
  | y :: ys => if y ≤ x then x :: y :: ys else y :: insertDesc x ys

/-- Python `sorted(l, reverse=True)`. -/
def sortDescInt (l : List ℤ) : List ℤ := l.foldr insertDesc []

/-- The window sequence used when `windows_desc is None` and no user config
is supplied: `sorted(DEFAULT_WINDOWS, reverse=True)` (scan.py line 473). -/
def defaultWindowSequence : List ℤ := sortDescInt DEFAULT_WINDOWS

/-- The `source == "assets"` window loop of `hunt_pairs_until_found`
(scan.py lines 481-524), with `build_pairs_base` abstracted to the oracle
`build : window ↦ (approved_ids, errors)`: append the window to `scanned`,
extend the error accumulator, and stop with success at the first window with
a non-empty approval list. -/
def huntGo (build : ℤ → List ℕ × List String) :
    List ℤ → List ℤ → List String → HuntResult
  | [], scanned, errs =>
    { found := false, window := none, approved_ids := [], errors := errs
      scanned_windows := scanned }
  | w :: rest, scanned, errs =>
    let r := build w
    let errs' := errs ++ r.2
    let scanned' := scanned ++ [w]
    if r.1 ≠ [] then
      { found := true, window := some w, approved_ids := r.1, errors := errs'
        scanned_windows := scanned' }
    else huntGo build rest scanned' errs'

/-- The orchestrator `hunt_pairs_until_found(windows_desc, source="assets", ...)` without the
interactive gate (scan.py lines 456-524), in the no-user-config case:
resolve the window sequence (`sorted(DEFAULT_WINDOWS, reverse=True)` when
`windows_desc is None`, `_resolve_windows(windows_desc, None)` otherwise)
and run the loop. -/
def huntPairsUntilFound (build : ℤ → List ℕ × List String)
    (windows_desc : Option (List ℤ)) : HuntResult :=
  let seq := match windows_desc with
    | none => defaultWindowSequence
    | some ws => resolveWindows (some ws)
  huntGo build seq [] []

/-- The decision value the hunt gate polls for (the `"continue"` /
`"cancel"` flag written under the job's decision key). -/
inductive GateDecision where
  | cont
  | cancel
  deriving DecidableEq, Repr

/-- The polling loop of `wait_for_next_window` in `pairs/views.py` (lines
282-312), run against a finite trace of cache reads (one entry per poll;
`none` = no decision written yet, which in the source triggers a
`time.sleep(0.5)` and another poll): the first decisive read answers
`"continue" ↦ true` / `"cancel" ↦ false`; a trace with no decision leaves
the loop still waiting (`none`). -/
def waitForNextWindow : List (Option GateDecision) → Option Bool
  | [] => none
  | some .cont :: _ => some true
  | some .cancel :: _ => some false
  | none :: rest => waitForNextWindow rest

/-- Modelled from the spec: the gate-aware variant of
`hunt_pairs_until_found` — the version accepting `wait_for_next_window`,
which `pairs/views.py:hunt_start` (lines 317-323) calls but which is missing
from the copy of `pairs/services/scan.py` in the sources — per spec 4.D:
after a window with no approval, when a gate callback is supplied and a next
window exists, consult the gate with the current window, the next window and
the windows scanned so far; `true` ("continue") advances, `false`
("cancel") terminates the search early with the not-found result listing
only the windows scanned so far. -/
def huntGateGo (build : ℤ → List ℕ × List String)
    (gate : ℤ → ℤ → List ℤ → Bool) :
    List ℤ → List ℤ → List String → HuntResult
  | [], scanned, errs =>
    { found := false, window := none, approved_ids := [], errors := errs
      scanned_windows := scanned }
  | w :: rest, scanned, errs =>
    let r := build w
    let errs' := errs ++ r.2
    let scanned' := scanned ++ [w]
    if r.1 ≠ [] then
      { found := true, window := some w, approved_ids := r.1, errors := errs'
        scanned_windows := scanned' }
    else
      match rest with
      | [] =>
        { found := false, window := none, approved_ids := [], errors := errs'
          scanned_windows := scanned' }
      | next :: _ =>
        if gate w next scanned' then huntGateGo build gate rest scanned' errs'
        else
          { found := false, window := none, approved_ids := [], errors := errs'
            scanned_windows := scanned' }

/-- Modelled from the spec: `hunt_pairs_until_found` with an optional
interactive gate (spec 4.D); without a gate the orchestrator advances
automatically, i.e. behaves as `huntPairsUntilFound`. -/
def huntPairsUntilFoundGated (build : ℤ → List ℕ × List String)
    (gate : Option (ℤ → ℤ → List ℤ → Bool))
    (windows_desc : Option (List ℤ)) : HuntResult :=
  let seq := match windows_desc with
    | none => defaultWindowSequence
    | some ws => resolveWindows (some ws)
  match gate with
  | none => huntGo build seq [] []
  | some g => huntGateGo build g seq [] []

/-! ### Pair metrics engine (`longshort/services/metrics.py`)

Prices and derived quantities live in `ℝ` (the source's floats; the ℝ model
has no non-finite values, so the source's `np.isfinite` guards — which only
fire on float overflow/0÷0 — are noted where they occur).  The numerical
library calls that the source delegates to external packages are
parameters: `lstsqSlope xs ys` is the slope component of
`np.linalg.lstsq([[1, x]], y)`, `adfuller s` is the statsmodels ADF p-value
(`none` when the call raises, matching the `except` at metrics.py lines
92-97), and `corrcoef a b` is `np.corrcoef(a, b)[0, 1]` (`none` when not
finite, matching `_last_corr`). -/

/-- Mean of a list (`Series.mean()`). -/
noncomputable def listMean (xs : List ℝ) : ℝ := xs.sum / xs.length

/-- Sample variance with `ddof=1`: `Σ (x − mean)² / (n − 1)`. -/
noncomputable def sampleVar (xs : List ℝ) : ℝ :=
  ((xs.map (fun x => (x - listMean xs) ^ 2)).sum) / (xs.length - 1)

/-- Sample standard deviation `Series.std(ddof=1)`. -/
noncomputable def sampleStd (xs : List ℝ) : ℝ := Real.sqrt (sampleVar xs)

/-- The standardization at metrics.py line 89:
`(spread - spread.mean()) / (spread.std(ddof=1) if spread.std(ddof=1) != 0 else 1)`. -/
noncomputable def standardize (xs : List ℝ) : List ℝ :=
  let m := listMean xs
  let s := sampleStd xs
  xs.map (fun x => (x - m) / (if s = 0 then 1 else s))

/-- Pandas `Series.diff().dropna()`: consecutive differences, length `n − 1`. -/
noncomputable def diffs (l : List ℝ) : List ℝ := l.tail.zipWith (fun b a => b - a) l

/-- The regression `_half_life` (metrics.py lines 14-37): regress the spread's first
difference on its one-period lag (`Δs_t = α + ρ·s_{t−1}`, here via the
`lstsqSlope` oracle on regressor `s.dropLast` = `s.shift(1).dropna()` and
response `diffs s` = `s.diff().dropna()`), return `none` when `1+ρ ≤ 0`,
otherwise `−ln 2 / ln (1+ρ)` if positive, else `none`.  (In the source the
positivity test is `np.isfinite(hl) and hl > 0`; the one non-finite float
case, `ρ = 0` giving `-inf`, maps here to `hl = 0`, rejected by `0 < hl`
exactly as the source rejects it.  The `except` around `lstsq` returns
`None`; the oracle is total, so that arm is vacuous here.) -/
noncomputable def halfLifeFn (lstsqSlope : List ℝ → List ℝ → ℝ) (s : List ℝ) : Option ℝ :=
  if s.length < 3 then none
  else
    let ds := diffs s
    let slag := s.dropLast
    if ds.length < 3 then none
    else
      let rho := lstsqSlope slag ds
      if 1 + rho ≤ 0 then none
      else
        let hl := -(Real.log 2) / Real.log (1 + rho)
        if 0 < hl then some hl else none

/-- Value of `int(0.6 * lookback)` in `_last_corr` for the lookbacks the source uses
(30 ↦ 18, 60 ↦ 36; the float product is exact there). -/
def corrFloor (lookback : ℕ) : ℕ := max 10 (3 * lookback / 5)

/-- The correlation helper `_last_corr` (metrics.py lines 39-47) for two return series that share
one date index (both are built from the same aligned frame, so the index
intersection of the two tails is the shorter tail): take the trailing
`lookback` points, require at least `max(10, int(0.6*lookback))` of them,
and hand the pair to the `corrcoef` oracle. -/
noncomputable def lastCorr (corrcoef : List ℝ → List ℝ → Option ℝ)
    (a b : List ℝ) (lookback : ℕ) : Option ℝ :=
  let ta := a.drop (a.length - lookback)
  let tb := b.drop (b.length - lookback)
  if min ta.length tb.length < corrFloor lookback then none
  else corrcoef ta tb

/-- Ascending insertion by date (first component). -/
def insertByDate (x : ℕ × ℝ × ℝ) :
    List (ℕ × ℝ × ℝ) → List (ℕ × ℝ × ℝ)
  | [] => [x]
  | y :: ys => if x.1 ≤ y.1 then x :: y :: ys else y :: insertByDate x ys

/-- Pandas `sort_values("date")` over the joined rows (dates are unique per
instrument, so stability is irrelevant). -/
def sortByDate (l : List (ℕ × ℝ × ℝ)) : List (ℕ × ℝ × ℝ) :=
  l.foldr insertByDate []

/-- The alignment of metrics.py line 74: inner-join the two fetched quote
lists on date, sort ascending by date, keep the last `window` rows.  Inputs
are the per-asset `(date, close)` lists as fetched (the source over-fetches
`2×window` most-recent rows; that slice happens in the store query and the
inputs here are its result). -/
def alignRows (ql qr : List (ℕ × ℝ)) (window : ℕ) : List (ℕ × ℝ × ℝ) :=
  let joined := ql.filterMap (fun p =>
    match qr.lookup p.1 with
    | some cr => some (p.1, p.2, cr)
    | none => none)
  let sorted := sortByDate joined
  sorted.drop (sorted.length - window)

/-- The spread construction of metrics.py lines 80-88 on an aligned frame:
log both close columns, estimate β by OLS of `log L` on `log R` (the
`lstsqSlope` oracle), and return `log L − β · log R` pointwise. -/
noncomputable def spreadOf (lstsqSlope : List ℝ → List ℝ → ℝ)
    (df : List (ℕ × ℝ × ℝ)) : List ℝ :=
  let pxl := df.map (fun r => Real.log r.2.1)
  let pxr := df.map (fun r => Real.log r.2.2)
  let beta := lstsqSlope pxr pxl
  pxl.zipWith (fun l r => l - beta * r) pxr

/-- The engine `compute_pair_window_metrics` (metrics.py lines 49-116).  Empty fetched
series → `{"n_samples": 0}`; fewer than 60 aligned rows → `{"n_samples": n}`
(every other key absent); otherwise the full record.  The scalar z-score is
the last element of the standardized spread (`spread_z.iloc[-1]`; the
source's `np.isfinite` guard never fires in the ℝ model). -/
noncomputable def computePairWindowMetrics (lstsqSlope : List ℝ → List ℝ → ℝ)
    (adfuller : List ℝ → Option ℝ) (corrcoef : List ℝ → List ℝ → Option ℝ)
    (ql qr : List (ℕ × ℝ)) (window : ℕ) : MetricsDict ℝ :=
  if ql = [] ∨ qr = [] then { n_samples := some 0 }
  else
    let df := alignRows ql qr window
    let n := df.length
    if n < 60 then { n_samples := some (n : ℤ) }
    else
      let pxl := df.map (fun r => Real.log r.2.1)
      let pxr := df.map (fun r => Real.log r.2.2)
      let beta := lstsqSlope pxr pxl
      let spread := spreadOf lstsqSlope df
      let spread_z := standardize spread
      { adf_pvalue := adfuller spread
        beta := some beta
        zscore := spread_z.getLast?
        half_life := halfLifeFn lstsqSlope spread
        corr30 := lastCorr corrcoef (diffs pxl) (diffs pxr) 30
        corr60 := lastCorr corrcoef (diffs pxl) (diffs pxr) 60
        n_samples := some (n : ℤ) }

/-! ### Helper lemmas (shared) -/

theorem adfKey_some {α : Type} [LinearOrderedField α] {r : WindowRow α} {a : α}
    (h : r.adf_pct = some a) : adfKey r = if a = 0 then -1 else a := by
  simp [adfKey, pyOr, h]

theorem zKey_some {α : Type} [LinearOrderedField α] {r : WindowRow α} {z : α}
    (h : r.zscore = some z) : zKey r = |z| := by
  simp only [zKey, pyOr, h]
  split
  · simp [*]
  · rfl

theorem betaKey_some {α : Type} [LinearOrderedField α] {r : WindowRow α} {b : α}
    (h : r.beta = some b) : betaKey r = |b| := by
  simp only [betaKey, pyOr, h]
  split
  · simp [*]
  · rfl

theorem adfCoerce_strictMono {α : Type} [LinearOrderedField α] {a b : α}
    (ha : 0 ≤ a) (hab : a < b) :
    (if a = 0 then (-1 : α) else a) < (if b = 0 then -1 else b) := by
  have hb : (0 : α) < b := lt_of_le_of_lt ha hab
  rw [if_neg (ne_of_gt hb)]
  by_cases h : a = 0
  · rw [if_pos h]
    linarith
  · rw [if_neg h]
    exact hab

theorem tieBreak_adf_wins {α : Type} [LinearOrderedField α] {b c : WindowRow α}
    (h : adfKey b < adfKey c) : tieBreak (some b) (some c) = some c := by
  simp only [tieBreak]
  rw [if_pos (ne_of_gt h), if_pos h]

theorem tieBreak_adf_loses {α : Type} [LinearOrderedField α] {b c : WindowRow α}
    (h : adfKey c < adfKey b) : tieBreak (some b) (some c) = some b := by
  simp only [tieBreak]
  rw [if_pos (ne_of_lt h), if_neg (not_lt.mpr (le_of_lt h))]

theorem tieBreak_z_wins {α : Type} [LinearOrderedField α] {b c : WindowRow α}
    (hadf : adfKey c = adfKey b) (h : zKey b < zKey c) :
    tieBreak (some b) (some c) = some c := by
  simp only [tieBreak]
  rw [if_neg (by simpa using hadf), if_pos (ne_of_gt h), if_pos h]

theorem tieBreak_z_loses {α : Type} [LinearOrderedField α] {b c : WindowRow α}
    (hadf : adfKey c = adfKey b) (h : zKey c < zKey b) :
    tieBreak (some b) (some c) = some b := by
  simp only [tieBreak]
  rw [if_neg (by simpa using hadf), if_pos (ne_of_lt h),
    if_neg (not_lt.mpr (le_of_lt h))]

theorem tieBreak_beta_wins {α : Type} [LinearOrderedField α] {b c : WindowRow α}
    (hadf : adfKey c = adfKey b) (hz : zKey c = zKey b) (h : betaKey c < betaKey b) :
    tieBreak (some b) (some c) = some c := by
  simp only [tieBreak]
  rw [if_neg (by simpa using hadf), if_neg (by simpa using hz), if_pos h]

theorem tieBreak_beta_loses_or_ties {α : Type} [LinearOrderedField α]
    {b c : WindowRow α} (hadf : adfKey c = adfKey b) (hz : zKey c = zKey b)
    (h : ¬ betaKey c < betaKey b) : tieBreak (some b) (some c) = some b := by
  simp only [tieBreak]
  rw [if_neg (by simpa using hadf), if_neg (by simpa using hz), if_neg h]

theorem bestFold_tied {α : Type} [LinearOrderedField α] (r0 : WindowRow α) :
    ∀ rows : List (WindowRow α), (∀ r ∈ rows, r.status = "ok") →
    (∀ r ∈ rows, adfKey r = adfKey r0 ∧ zKey r = zKey r0 ∧ betaKey r = betaKey r0) →
    rows.foldl (fun b r => if r.status = "ok" then tieBreak b (some r) else b)
      (some r0) = some r0 := by
  intro rows
  induction rows with
  | nil => intro _ _; rfl
  | cons r rest ih =>
    intro hok hkeys
    have hkr := hkeys r (List.mem_cons_self r rest)
    have step : (if r.status = "ok" then tieBreak (some r0) (some r) else some r0)
        = some r0 := by
      rw [if_pos (hok r (List.mem_cons_self r rest))]
      exact tieBreak_beta_loses_or_ties hkr.1 hkr.2.1 (by rw [hkr.2.2]; exact lt_irrefl _)
    simp only [List.foldl_cons, step]
    exact ih (fun x hx => hok x (List.mem_cons_of_mem r hx))
      (fun x hx => hkeys x (List.mem_cons_of_mem r hx))

/-! ### C1 — approval chain of `scan_pair_windows` -/

/-- A metrics record that passes every configured threshold of the default
configuration: `n_samples = 100 ≥ 60`, `adf_pct = (1 − 0.01)·100 = 99 ≥ 95`,
`|z| = 2.5 ≥ 2`, `half_life = 2 ≤ 5`. -/
def metricsAllPass : MetricsDict ℚ :=
  { adf_pvalue := some (1/100), beta := some 1, zscore := some (5/2)
    half_life := some 2, corr30 := some 1, corr60 := some 1, n_samples := some 100 }

/-- C1: the claim says a window row on which every check passes gets status
`"ok"`.  The code does not: with the (default) half-life ceiling configured
and every check passing — the half-life check included — `scan_pair_windows`
never assigns a status, leaving the initial `"pendente"` with an empty
message, because its `else: status = "ok"` arm belongs to the
`elif thresholds.half_life_max is not None` test.  On the very same metrics
the sibling `_compute_base_for_pair` approves (`True, payload, "OK"`),
showing the intended semantics; and the `"pendente"` row is then invisible
to the best-row selection, which only considers `"ok"` rows. -/
theorem scan_allPass_halfLifeConfigured_pendente_not_ok :
    (evalWindowRow (defaultThresholds ℚ) 180 metricsAllPass).status = "pendente" ∧
    (evalWindowRow (defaultThresholds ℚ) 180 metricsAllPass).status ≠ "ok" ∧
    (evalWindowRow (defaultThresholds ℚ) 180 metricsAllPass).message = .empty ∧
    (computeBaseForPair (defaultThresholds ℚ) metricsAllPass 180).1 = true ∧
    bestRow [evalWindowRow (defaultThresholds ℚ) 180 metricsAllPass] = none := by
  have hrow : evalWindowRow (defaultThresholds ℚ) 180 metricsAllPass =
      { window := 180, adf_pct := some 99, adf_pvalue := some (1/100)
        beta := some 1, zscore := some (5/2), half_life := some 2
        corr30 := some 1, corr60 := some 1
        status := "pendente", message := .empty } := by
    unfold evalWindowRow metricsAllPass defaultThresholds samplesTooSmall
    norm_num [abs_of_nonneg (show (0:ℚ) ≤ 5/2 by norm_num)]
  have hbase : (computeBaseForPair (defaultThresholds ℚ) metricsAllPass 180).1 = true := by
    unfold computeBaseForPair metricsAllPass defaultThresholds samplesTooSmall
    norm_num [abs_of_nonneg (show (0:ℚ) ≤ 5/2 by norm_num)]
  refine ⟨by rw [hrow], by rw [hrow]; simp, by rw [hrow], hbase, ?_⟩
  rw [hrow]
  simp [bestRow]

/-! ### C2 — the tie-break priority order -/

/-- C2: among `"ok"` rows (which always carry an ADF percentage
`(1−p)·100 ≥ 0` for a p-value `p ≤ 1`, a z-score and a beta), `_tie_break`
realises the claimed strict priority order, irrespective of which row is the
incumbent: strictly higher `adf_pct` wins; on equal `adf_pct`, strictly
larger `|zscore|` wins; on equal `|zscore|` too, strictly smaller `|beta|`
wins.  (The `0 ≤ adf_pct` hypotheses matter: the code coerces a present
`adf_pct == 0.0` to `-1.0` through Python's falsy `or`, which is
order-preserving on `[0, ∞)` but not below it.) -/
theorem tieBreak_priority_order {α : Type} [LinearOrderedField α]
    (r s : WindowRow α) (a b zr zs br bs : α)
    (har : r.adf_pct = some a) (hsb : s.adf_pct = some b)
    (ha0 : 0 ≤ a) (hb0 : 0 ≤ b)
    (hzr : r.zscore = some zr) (hzs : s.zscore = some zs)
    (hbrr : r.beta = some br) (hbss : s.beta = some bs) :
    (a < b →
      tieBreak (some r) (some s) = some s ∧ tieBreak (some s) (some r) = some s) ∧
    (a = b → |zr| < |zs| →
      tieBreak (some r) (some s) = some s ∧ tieBreak (some s) (some r) = some s) ∧
    (a = b → |zr| = |zs| → |bs| < |br| →
      tieBreak (some r) (some s) = some s ∧ tieBreak (some s) (some r) = some s) := by
  have hadfr := adfKey_some har
  have hadfs := adfKey_some hsb
  have hzkr := zKey_some hzr
  have hzks := zKey_some hzs
  have hbkr := betaKey_some hbrr
  have hbks := betaKey_some hbss
  refine ⟨?_, ?_, ?_⟩
  · intro hab
    have hk : adfKey r < adfKey s := by
      rw [hadfr, hadfs]; exact adfCoerce_strictMono ha0 hab
    exact ⟨tieBreak_adf_wins hk, tieBreak_adf_loses hk⟩
  · intro hab hz
    have hk : adfKey s = adfKey r := by rw [hadfr, hadfs, hab]
    have hzk : zKey r < zKey s := by rw [hzkr, hzks]; exact hz
    exact ⟨tieBreak_z_wins hk hzk, tieBreak_z_loses hk.symm hzk⟩
  · intro hab hz hbeta
    have hk : adfKey s = adfKey r := by rw [hadfr, hadfs, hab]
    have hzk : zKey s = zKey r := by rw [hzkr, hzks, hz]
    have hbk : betaKey s < betaKey r := by rw [hbkr, hbks]; exact hbeta
    exact ⟨tieBreak_beta_wins hk hzk hbk,
      tieBreak_beta_loses_or_ties hk.symm hzk.symm (not_lt.mpr (le_of_lt hbk))⟩

/-- An `"ok"` row with the weaker stationarity evidence. -/
def rowLow : WindowRow ℚ :=
  { window := 80, adf_pct := some 96, adf_pvalue := some (4/100), beta := some 2
    zscore := some 2, half_life := some 1, corr30 := none, corr60 := none
    status := "ok", message := .okMsg }

/-- An `"ok"` row with the stronger stationarity evidence. -/
def rowHigh : WindowRow ℚ :=
  { window := 90, adf_pct := some 99, adf_pvalue := some (1/100), beta := some 1
    zscore := some 3, half_life := some 1, corr30 := none, corr60 := none
    status := "ok", message := .okMsg }

/-- Witness for `tieBreak_priority_order`: two concrete `"ok"` rows with
`adf_pct` 96 vs 99 — the 99-row wins from either position. -/
theorem tieBreak_priority_order_witness :
    (0:ℚ) ≤ 96 ∧ (0:ℚ) ≤ 99 ∧ (96:ℚ) < 99 ∧
    tieBreak (some rowLow) (some rowHigh) = some rowHigh ∧
    tieBreak (some rowHigh) (some rowLow) = some rowHigh := by
  have h := (tieBreak_priority_order rowLow rowHigh 96 99 2 3 2 1
    rfl rfl (by norm_num) (by norm_num) rfl rfl rfl rfl).1 (by norm_num)
  exact ⟨by norm_num, by norm_num, by norm_num, h.1, h.2⟩

/-! ### C10 — full ties keep the incumbent; missing-value coercions -/

/-- C10: in `_tie_break` a missing `adf_pct` reads as `-1.0` and a missing
`zscore` / `beta` as `0.0`; a candidate fully tied with the incumbent (equal
coerced ADF key, |z| key and |beta| key) loses to the incumbent; hence over
a row list whose `"ok"` rows are all fully tied the scanner's fold keeps the
first `"ok"` row — the row of the earliest window, since `scan_pair_windows`
builds one row per resolved window in list order (last conjunct). -/
theorem tieBreak_full_tie_keeps_incumbent :
    (∀ r : WindowRow ℚ, r.adf_pct = none → adfKey r = -1) ∧
    (∀ r : WindowRow ℚ, r.zscore = none → zKey r = 0) ∧
    (∀ r : WindowRow ℚ, r.beta = none → betaKey r = 0) ∧
    (∀ b c : WindowRow ℚ, adfKey c = adfKey b → zKey c = zKey b →
      betaKey c = betaKey b → tieBreak (some b) (some c) = some b) ∧
    (∀ (r0 : WindowRow ℚ) (rest : List (WindowRow ℚ)),
      (∀ r ∈ r0 :: rest, r.status = "ok") →
      (∀ r ∈ r0 :: rest,
        adfKey r = adfKey r0 ∧ zKey r = zKey r0 ∧ betaKey r = betaKey r0) →
      bestRow (r0 :: rest) = some r0) ∧
    (∀ (metricsOf : ℤ → MetricsDict ℚ) (wsArg : Option (List ℤ))
      (th : Thresholds ℚ) (p : PairRecord ℚ) (now : ℕ),
      (scanPairWindows metricsOf wsArg th p now).1 =
        (resolveWindows wsArg).map (fun w => evalWindowRow th w (metricsOf w)) ∧
      (scanPairWindows metricsOf wsArg th p now).2.1 =
        bestRow (scanPairWindows metricsOf wsArg th p now).1) := by
  refine ⟨?_, ?_, ?_, ?_, ?_, ?_⟩
  · intro r h; simp [adfKey, pyOr, h]
  · intro r h; simp [zKey, pyOr, h]
  · intro r h; simp [betaKey, pyOr, h]
  · intro b c h1 h2 h3
    exact tieBreak_beta_loses_or_ties h1 h2 (by rw [h3]; exact lt_irrefl _)
  · intro r0 rest hok hkeys
    have h0 : r0.status = "ok" := hok r0 (List.mem_cons_self r0 rest)
    have hstep : (if r0.status = "ok" then tieBreak none (some r0) else none)
        = some r0 := by rw [if_pos h0]; rfl
    simp only [bestRow, List.foldl_cons, hstep]
    exact bestFold_tied r0 rest
      (fun x hx => hok x (List.mem_cons_of_mem r0 hx))
      (fun x hx => hkeys x (List.mem_cons_of_mem r0 hx))
  · intro metricsOf wsArg th p now
    exact ⟨rfl, rfl⟩

/-- A fully tied `"ok"` row at the earlier window 80. -/
def rowTiedA : WindowRow ℚ :=
  { window := 80, adf_pct := some 97, adf_pvalue := some (3/100), beta := some 1
    zscore := some 2, half_life := some 1, corr30 := none, corr60 := none
    status := "ok", message := .okMsg }

/-- The same metrics at the later window 90. -/
def rowTiedB : WindowRow ℚ :=
  { window := 90, adf_pct := some 97, adf_pvalue := some (3/100), beta := some 1
    zscore := some 2, half_life := some 1, corr30 := none, corr60 := none
    status := "ok", message := .okMsg }

/-- Witness for `tieBreak_full_tie_keeps_incumbent`: two fully tied concrete
rows — the incumbent (earlier window) is kept by both the raw tie-break and
the scanner's fold. -/
theorem tieBreak_full_tie_keeps_incumbent_witness :
    tieBreak (some rowTiedA) (some rowTiedB) = some rowTiedA ∧
    bestRow [rowTiedA, rowTiedB] = some rowTiedA ∧
    adfKey { rowTiedA with adf_pct := none } = -1 := by
  refine ⟨tieBreak_full_tie_keeps_incumbent.2.2.2.1 rowTiedA rowTiedB rfl rfl rfl,
    tieBreak_full_tie_keeps_incumbent.2.2.2.2.1 rowTiedA [rowTiedB] ?_ ?_,
    tieBreak_full_tie_keeps_incumbent.1 _ rfl⟩
  · intro r hr
    rcases List.mem_cons.mp hr with h | h
    · subst h; rfl
    · rcases List.mem_cons.mp h with h' | h'
      · subst h'; rfl
      · cases h'
  · intro r hr
    rcases List.mem_cons.mp hr with h | h
    · subst h; exact ⟨rfl, rfl, rfl⟩
    · rcases List.mem_cons.mp h with h' | h'
      · subst h'; exact ⟨rfl, rfl, rfl⟩
      · cases h'

/-! ### C9 — `scan_cache` writes are merge-only per key -/

/-- C9: each cache write merges exactly one key.  `writeScan` (used by
`scan_pair_windows`) sets `"scan"` and preserves `"base"` and any other
keys; `writeBase` (used by `build_pairs_base` and the existing-pairs hunt
loop) sets `"base"` and preserves `"scan"` and other keys; both refresh the
cache timestamp and leave every other column of the record — `left`,
`right` and the `rest` stand-in for the columns outside `update_fields` —
untouched; and `scan_pair_windows` performs its persistence exactly as one
`writeScan`. -/
theorem scanCache_writes_merge_per_key :
    (∀ (p : PairRecord ℚ) (payload : ScanPayload ℚ) (now : ℕ),
      ((writeScan p payload now).scan_cache_json.getD {}).scan = some payload ∧
      ((writeScan p payload now).scan_cache_json.getD {}).base =
        (p.scan_cache_json.getD {}).base ∧
      ((writeScan p payload now).scan_cache_json.getD {}).extra =
        (p.scan_cache_json.getD {}).extra ∧
      (writeScan p payload now).scan_cached_at = some now ∧
      (writeScan p payload now).left = p.left ∧
      (writeScan p payload now).right = p.right ∧
      (writeScan p payload now).rest = p.rest) ∧
    (∀ (p : PairRecord ℚ) (v : BaseCacheVal ℚ) (now : ℕ),
      ((writeBase p v now).scan_cache_json.getD {}).base = some v ∧
      ((writeBase p v now).scan_cache_json.getD {}).scan =
        (p.scan_cache_json.getD {}).scan ∧
      ((writeBase p v now).scan_cache_json.getD {}).extra =
        (p.scan_cache_json.getD {}).extra ∧
      (writeBase p v now).scan_cached_at = some now ∧
      (writeBase p v now).left = p.left ∧
      (writeBase p v now).right = p.right ∧
      (writeBase p v now).rest = p.rest) ∧
    (∀ (metricsOf : ℤ → MetricsDict ℚ) (wsArg : Option (List ℤ))
      (th : Thresholds ℚ) (p : PairRecord ℚ) (now : ℕ),
      ∃ payload, (scanPairWindows metricsOf wsArg th p now).2.2.2 =
        writeScan p payload now) :=
  ⟨fun _ _ _ => ⟨rfl, rfl, rfl, rfl, rfl, rfl, rfl⟩,
   fun _ _ _ => ⟨rfl, rfl, rfl, rfl, rfl, rfl, rfl⟩,
   fun _ _ _ _ _ => ⟨_, rfl⟩⟩

/-! ### C5 — `build_pairs_base` per-combination persistence -/

theorem storeLookup_set {α : Type} (k : ℕ) (v : PairRecord α)
    (s : List (ℕ × PairRecord α)) : storeLookup k (storeSet k v s) = some v := by
  simp [storeLookup, storeSet, List.lookup]

theorem processCombo_processed {α : Type} [LinearOrderedField α] (window : ℤ)
    (now : ℕ) (st : BuildState α) (k : ℕ) (o : DecideOutcome α) :
    (processCombo window now st k o).processed = st.processed + 1 := by
  cases o with
  | approvedOut payload => rfl
  | rejectedOut msg =>
    rcases h : storeLookup k st.store with _ | p <;> simp [processCombo, h]
  | raisedOut e => rfl

theorem buildPairsBase_processed {α : Type} [LinearOrderedField α] (window : ℤ)
    (now : ℕ) (decide : ℕ → DecideOutcome α) :
    ∀ (combos : List ℕ) (st : BuildState α),
      (buildPairsBase window now decide combos st).processed =
        st.processed + combos.length := by
  intro combos
  induction combos with
  | nil => intro st; simp [buildPairsBase]
  | cons c cs ih =>
    intro st
    have h1 : buildPairsBase window now decide (c :: cs) st =
        buildPairsBase window now decide cs (processCombo window now st c (decide c)) := rfl
    rw [h1, ih, processCombo_processed]
    simp [List.length_cons]
    ring

/-- C5: per combination of `build_pairs_base` — approval persists the
payload under the `"base"` cache key and counts it (as `created` for a
fresh record, as `updated` for a pre-existing one) and records the id;
rejection of a record freshly created for this call deletes it, leaving no
trace in the store; rejection of a pre-existing record overwrites its
`"base"` key with the rejection reason; an exception during a combination
is caught, appended to the error list as a string, with the just-created
record rolled back (store unchanged); and the loop processes every
combination no matter the outcomes — a single failure never aborts the
scan. -/
theorem buildPairsBase_per_combination (window : ℤ) (now : ℕ)
    (st : BuildState ℚ) (k : ℕ) (payload : BasePayload ℚ) (msg : ScanMessage ℚ)
    (e : String) (p : PairRecord ℚ) :
    (storeLookup k (processCombo window now st k (.approvedOut payload)).store =
        some (writeBase ((storeLookup k st.store).getD (freshPair ℚ k))
          (.okVal payload) now) ∧
      (processCombo window now st k (.approvedOut payload)).approved =
        st.approved ++ [k] ∧
      (processCombo window now st k (.approvedOut payload)).created =
        st.created + (if (storeLookup k st.store).isSome then 0 else 1) ∧
      (processCombo window now st k (.approvedOut payload)).updated =
        st.updated + (if (storeLookup k st.store).isSome then 1 else 0)) ∧
    (storeLookup k st.store = none →
      (processCombo window now st k (.rejectedOut msg)).store = st.store ∧
      storeLookup k (processCombo window now st k (.rejectedOut msg)).store = none) ∧
    (storeLookup k st.store = some p →
      storeLookup k (processCombo window now st k (.rejectedOut msg)).store =
        some (writeBase p (.reprovadoVal window msg) now)) ∧
    ((processCombo window now st k (.raisedOut e)).errors = st.errors ++ [e] ∧
      (processCombo window now st k (.raisedOut e)).store = st.store) ∧
    (∀ (decide : ℕ → DecideOutcome ℚ) (combos : List ℕ),
      (buildPairsBase window now decide combos st).processed =
        st.processed + combos.length) := by
  refine ⟨⟨storeLookup_set k _ st.store, rfl, rfl, rfl⟩, ?_, ?_, ⟨rfl, rfl⟩,
    fun d combos => buildPairsBase_processed window now d combos st⟩
  · intro h
    constructor
    · simp [processCombo, h]
    · simp [processCombo, h]
  · intro h
    simp only [processCombo, h]
    exact storeLookup_set k _ st.store

/-- An empty pair store. -/
def stEmpty : BuildState ℚ := { store := [] }

/-- A pre-existing pair record under key 5. -/
def pairKnown : PairRecord ℚ := { left := 1, right := 2 }

/-- A pair store already containing key 5. -/
def stKnown : BuildState ℚ := { store := [(5, pairKnown)] }

/-- Witness for `buildPairsBase_per_combination`: a rejection against an
empty store leaves the store empty (no rejected-on-first-sight row), and a
rejection against a store that already knows the pair overwrites its
`"base"` key with the rejection record. -/
theorem buildPairsBase_per_combination_witness :
    storeLookup 5 stEmpty.store = none ∧
    (processCombo 180 7 stEmpty 5 (.rejectedOut .adfIndisponivel)).store =
      stEmpty.store ∧
    storeLookup 5 stKnown.store = some pairKnown ∧
    storeLookup 5 (processCombo 180 7 stKnown 5 (.rejectedOut .adfIndisponivel)).store =
      some (writeBase pairKnown (.reprovadoVal 180 .adfIndisponivel) 7) :=
  ⟨rfl,
   ((buildPairsBase_per_combination 180 7 stEmpty 5
      { window := 180, adf_pvalue := none, adf_pct := none, beta := none
        zscore := none, half_life := none, corr30 := none, corr60 := none
        n_samples := none, status := "ok" }
      .adfIndisponivel "e" pairKnown).2.1 rfl).1,
   rfl,
   (buildPairsBase_per_combination 180 7 stKnown 5
      { window := 180, adf_pvalue := none, adf_pct := none, beta := none
        zscore := none, half_life := none, corr30 := none, corr60 := none
        n_samples := none, status := "ok" }
      .adfIndisponivel "e" pairKnown).2.2.1 rfl⟩

/-! ### C4 — greedy descending hunt -/

theorem huntGo_all_fail (build : ℤ → List ℕ × List String) :
    ∀ (l : List ℤ) (scanned : List ℤ) (errs : List String),
      (∀ w ∈ l, (build w).1 = []) →
      huntGo build l scanned errs =
        { found := false, window := none, approved_ids := []
          errors := errs ++ l.flatMap (fun w => (build w).2)
          scanned_windows := scanned ++ l } := by
  intro l
  induction l with
  | nil => intro scanned errs _; simp [huntGo]
  | cons w ws ih =>
    intro scanned errs hfail
    have hw : (build w).1 = [] := hfail w (List.mem_cons_self w ws)
    simp only [huntGo, hw, ne_eq, not_true_eq_false, if_false]
    rw [ih _ _ (fun v hv => hfail v (List.mem_cons_of_mem w hv))]
    simp [List.flatMap_cons]

theorem huntGo_first_success (build : ℤ → List ℕ × List String) :
    ∀ (l₁ : List ℤ) (w : ℤ) (l₂ : List ℤ) (scanned : List ℤ) (errs : List String),
      (∀ v ∈ l₁, (build v).1 = []) → (build w).1 ≠ [] →
      huntGo build (l₁ ++ w :: l₂) scanned errs =
        { found := true, window := some w, approved_ids := (build w).1
          errors := errs ++ l₁.flatMap (fun v => (build v).2) ++ (build w).2
          scanned_windows := scanned ++ l₁ ++ [w] } := by
  intro l₁
  induction l₁ with
  | nil =>
    intro w l₂ scanned errs _ hwin
    simp only [List.nil_append, huntGo]
    rw [if_pos hwin]
    simp
  | cons v vs ih =>
    intro w l₂ scanned errs hfail hwin
    have hv : (build v).1 = [] := hfail v (List.mem_cons_self v vs)
    simp only [List.cons_append, huntGo, hv, ne_eq, not_true_eq_false, if_false,
      List.append_eq]
    rw [ih w l₂ _ _ (fun x hx => hfail x (List.mem_cons_of_mem v hx)) hwin]
    simp [List.flatMap_cons]

/-- C4: the hunt with no explicit window list iterates
`sorted(DEFAULT_WINDOWS, reverse=True)` — largest window first (second
conjunct spells the sequence out); at the first window whose evaluation
approves at least one pair it stops immediately with `found = True`, that
window, the approved ids, the errors accumulated so far and
`scanned_windows` listing exactly the windows scanned up to and including
the winning one (third conjunct); and when every window fails it returns
`found = False`, `window = None`, no approved ids, every accumulated error
string and every scanned window in iteration order (fourth conjunct). -/
theorem hunt_greedy_first_approval (build : ℤ → List ℕ × List String)
    (l₁ l₂ ws : List ℤ) (w : ℤ) :
    (huntPairsUntilFound build none = huntGo build defaultWindowSequence [] []) ∧
    (defaultWindowSequence = [180, 170, 160, 150, 140, 130, 120, 110, 100, 90, 80]) ∧
    ((∀ v ∈ l₁, (build v).1 = []) → (build w).1 ≠ [] →
      huntGo build (l₁ ++ w :: l₂) [] [] =
        { found := true, window := some w, approved_ids := (build w).1
          errors := l₁.flatMap (fun v => (build v).2) ++ (build w).2
          scanned_windows := l₁ ++ [w] }) ∧
    ((∀ v ∈ ws, (build v).1 = []) →
      huntGo build ws [] [] =
        { found := false, window := none, approved_ids := []
          errors := ws.flatMap (fun v => (build v).2)
          scanned_windows := ws }) := by
  refine ⟨rfl, by decide, ?_, ?_⟩
  · intro hfail hwin
    rw [huntGo_first_success build l₁ w l₂ [] [] hfail hwin]
    simp
  · intro hfail
    rw [huntGo_all_fail build ws [] [] hfail]
    simp

/-- The build oracle of the C4 scenario: only window 140 approves (pair id
7), no window reports errors. -/
def buildOnly140 : ℤ → List ℕ × List String :=
  fun w => (if w = 140 then [7] else [], [])

/-- Witness for `hunt_greedy_first_approval`: hunting `[180, 160, 140]`
where only window 140 approves yields `found = True`, `window = 140`,
`scanned_windows = [180, 160, 140]`. -/
theorem hunt_greedy_first_approval_witness :
    (∀ v ∈ [(180 : ℤ), 160], (buildOnly140 v).1 = []) ∧
    (buildOnly140 140).1 ≠ [] ∧
    huntGo buildOnly140 [180, 160, 140] [] [] =
      { found := true, window := some 140, approved_ids := [7], errors := []
        scanned_windows := [180, 160, 140] } := by
  have h := (hunt_greedy_first_approval buildOnly140 [180, 160] [] [] 140).2.2.1
    (by decide) (by decide)
  exact ⟨by decide, by decide, by simpa [buildOnly140] using h⟩

/-! ### C3 — interactive gate (spec-modelled orchestrator, source-embedded
polling callback) -/

/-- C3: the polling callback keeps polling over indecisive reads and
answers the first decision (`"continue"` ↦ advance, `"cancel"` ↦ stop) —
first three conjuncts, from the `wait_for_next_window` source in
`pairs/views.py`; the gated orchestrator consults the gate only after a
window with no approval, and a `false` ("cancel") answer terminates the
search early with the not-found result whose `scanned_windows` holds only
the windows scanned so far (fourth conjunct), while a `true` ("continue")
answer advances to the next window with all accumulators carried over
(fifth conjunct); the last conjunct links the wrapper to the loop. -/
theorem hunt_gate_cancel_stops_early (build : ℤ → List ℕ × List String)
    (g : ℤ → ℤ → List ℤ → Bool) (w next : ℤ) (rest : List ℤ)
    (polls : List (Option GateDecision)) (ws : List ℤ) :
    (waitForNextWindow (none :: polls) = waitForNextWindow polls) ∧
    (waitForNextWindow (some .cont :: polls) = some true) ∧
    (waitForNextWindow (some .cancel :: polls) = some false) ∧
    ((build w).1 = [] → g w next [w] = false →
      huntGateGo build g (w :: next :: rest) [] [] =
        { found := false, window := none, approved_ids := []
          errors := (build w).2, scanned_windows := [w] }) ∧
    ((build w).1 = [] → g w next [w] = true →
      huntGateGo build g (w :: next :: rest) [] [] =
        huntGateGo build g (next :: rest) [w] (build w).2) ∧
    (huntPairsUntilFoundGated build (some g) (some ws) =
      huntGateGo build g (resolveWindows (some ws)) [] []) := by
  refine ⟨rfl, rfl, rfl, ?_, ?_, rfl⟩
  · intro hfail hcancel
    simp only [huntGateGo, hfail, ne_eq, not_true_eq_false, if_false,
      List.nil_append, hcancel, Bool.false_eq_true]
  · intro hfail hcont
    simp only [huntGateGo, hfail, ne_eq, not_true_eq_false, if_false,
      List.nil_append, hcont]
    simp

/-- A build oracle that never approves and never errs. -/
def buildNothing : ℤ → List ℕ × List String := fun _ => ([], [])

/-- The C3 scenario's gate: it answers with the first decision of the poll
trace `[none, none, cancel]` — i.e. two empty polls, then `"cancel"`. -/
def gateCancelAfterPolls : ℤ → ℤ → List ℤ → Bool :=
  fun _ _ _ => (waitForNextWindow [none, none, some .cancel]).getD true

/-- Witness for `hunt_gate_cancel_stops_early`: hunting `[180, 160, 140]`
with no approvals and a gate that cancels after window 180 yields
`found = False`, `scanned_windows = [180]`. -/
theorem hunt_gate_cancel_stops_early_witness :
    (buildNothing 180).1 = [] ∧
    gateCancelAfterPolls 180 160 [180] = false ∧
    huntPairsUntilFoundGated buildNothing (some gateCancelAfterPolls)
      (some [180, 160, 140]) =
      { found := false, window := none, approved_ids := [], errors := []
        scanned_windows := [180] } := by
  have h := (hunt_gate_cancel_stops_early buildNothing gateCancelAfterPolls
    180 160 [140] [] [180, 160, 140]).2.2.2.1 rfl rfl
  refine ⟨rfl, rfl, ?_⟩
  have hlink : huntPairsUntilFoundGated buildNothing (some gateCancelAfterPolls)
      (some [180, 160, 140]) =
      huntGateGo buildNothing gateCancelAfterPolls [180, 160, 140] [] [] := by
    rw [(hunt_gate_cancel_stops_early buildNothing gateCancelAfterPolls
      180 160 [140] [] [180, 160, 140]).2.2.2.2.2]
    decide
  rw [hlink, h]
  rfl

/-! ### C6 — insufficient aligned data yields a partial record, never an
error -/

/-- C6: `compute_pair_window_metrics` is a total function of its inputs (the
embedding is a Lean function — no exception path exists); when either
fetched series is empty it returns the partial record `{n_samples: 0}`;
when fewer than 60 aligned rows remain after the inner join it returns a
record carrying only the aligned count, every other field absent (the
record equation exhibits every other field as `none`); and the scanner
marks any such partial record `"reprovado"` with the sample-size message
`"Amostra insuficiente (N<60)"`. -/
theorem computeMetrics_small_sample_spec (lstsqSlope : List ℝ → List ℝ → ℝ)
    (adfuller : List ℝ → Option ℝ) (corrcoef : List ℝ → List ℝ → Option ℝ)
    (ql qr : List (ℕ × ℝ)) (window : ℕ) :
    (ql = [] ∨ qr = [] →
      computePairWindowMetrics lstsqSlope adfuller corrcoef ql qr window =
        { n_samples := some 0 }) ∧
    (ql ≠ [] → qr ≠ [] → (alignRows ql qr window).length < 60 →
      computePairWindowMetrics lstsqSlope adfuller corrcoef ql qr window =
        { adf_pvalue := none, beta := none, zscore := none, half_life := none
          corr30 := none, corr60 := none
          n_samples := some ((alignRows ql qr window).length : ℤ) }) ∧
    (∀ (th : Thresholds ℝ) (w : ℤ) (n : ℤ), n < 60 →
      (evalWindowRow th w ({ n_samples := some n } : MetricsDict ℝ)).status =
        "reprovado" ∧
      (evalWindowRow th w ({ n_samples := some n } : MetricsDict ℝ)).message =
        .amostraInsuficiente) := by
  refine ⟨?_, ?_, ?_⟩
  · intro h
    simp only [computePairWindowMetrics, if_pos h]
  · intro h1 h2 h3
    have hno : ¬ (ql = [] ∨ qr = []) := by
      intro h; rcases h with h | h
      · exact h1 h
      · exact h2 h
    simp only [computePairWindowMetrics, if_neg hno, if_pos h3]
  · intro th w n hn
    have hsmall : samplesTooSmall (some n) = true := by
      simp [samplesTooSmall, hn]
    constructor
    · simp only [evalWindowRow, hsmall, if_true]
    · simp only [evalWindowRow, hsmall, if_true]

/-- Two-row fetched series for the left leg. -/
def qlSmall : List (ℕ × ℝ) := [(1, 1), (2, 2)]

/-- Two-row fetched series for the right leg (same dates). -/
def qrSmall : List (ℕ × ℝ) := [(1, 3), (2, 5)]

/-- Witness for `computeMetrics_small_sample_spec`: two series aligning on 2 < 60
dates produce `{n_samples: 2}` with all other fields absent, and the scanner
rejects the window with the sample-size message. -/
theorem computeMetrics_small_sample_spec_witness :
    qlSmall ≠ [] ∧ qrSmall ≠ [] ∧ (alignRows qlSmall qrSmall 100).length = 2 ∧
    computePairWindowMetrics (fun _ _ => 0) (fun _ => none) (fun _ _ => none)
      qlSmall qrSmall 100 =
      { adf_pvalue := none, beta := none, zscore := none, half_life := none
        corr30 := none, corr60 := none, n_samples := some 2 } ∧
    (evalWindowRow (defaultThresholds ℝ) 100
      ({ n_samples := some 2 } : MetricsDict ℝ)).status = "reprovado" ∧
    (evalWindowRow (defaultThresholds ℝ) 100
      ({ n_samples := some 2 } : MetricsDict ℝ)).message = .amostraInsuficiente := by
  have hlen : (alignRows qlSmall qrSmall 100).length = 2 := rfl
  have hq1 : qlSmall ≠ [] := by simp [qlSmall]
  have hq2 : qrSmall ≠ [] := by simp [qrSmall]
  have hrec := (computeMetrics_small_sample_spec (fun _ _ => 0) (fun _ => none)
    (fun _ _ => none) qlSmall qrSmall 100).2.1 hq1 hq2 (by rw [hlen]; norm_num)
  have hrow := (computeMetrics_small_sample_spec (fun _ _ => 0) (fun _ => none)
    (fun _ _ => none) qlSmall qrSmall 100).2.2 (defaultThresholds ℝ) 100 2
    (by norm_num)
  refine ⟨hq1, hq2, hlen, ?_, hrow.1, hrow.2⟩
  rw [hrec, hlen]
  norm_num

/-! ### C7 — spread standardization -/

theorem sum_map_sub_const (xs : List ℝ) (c : ℝ) :
    (xs.map (fun x => x - c)).sum = xs.sum - xs.length * c := by
  induction xs with
  | nil => simp
  | cons a l ih =>
    simp only [List.map_cons, List.sum_cons, List.length_cons, ih]
    push_cast
    ring

theorem sum_map_div_const (xs : List ℝ) (d : ℝ) :
    (xs.map (fun x => x / d)).sum = xs.sum / d := by
  induction xs with
  | nil => simp
  | cons a l ih => simp [ih, add_div]

theorem standardize_as_two_maps (xs : List ℝ) :
    standardize xs = (xs.map (fun x => x - listMean xs)).map
      (fun y => y / (if sampleStd xs = 0 then 1 else sampleStd xs)) := by
  simp only [standardize, List.map_map]
  rfl

theorem standardize_length (xs : List ℝ) :
    (standardize xs).length = xs.length := by
  simp [standardize]

theorem sum_standardize (xs : List ℝ) (h : xs ≠ []) :
    (standardize xs).sum = 0 := by
  have hn : (xs.length : ℝ) ≠ 0 := by
    exact_mod_cast Nat.pos_iff_ne_zero.mp (List.length_pos.mpr h)
  rw [standardize_as_two_maps, sum_map_div_const, sum_map_sub_const]
  rw [listMean, mul_div_cancel₀ _ hn]
  simp

theorem listMean_standardize (xs : List ℝ) (h : xs ≠ []) :
    listMean (standardize xs) = 0 := by
  rw [listMean, sum_standardize xs h, zero_div]

theorem sampleVar_nonneg (xs : List ℝ) (h2 : 2 ≤ xs.length) :
    0 ≤ sampleVar xs := by
  have hsum : 0 ≤ (xs.map (fun x => (x - listMean xs) ^ 2)).sum := by
    apply List.sum_nonneg
    intro y hy
    rcases List.mem_map.mp hy with ⟨x, _, hx⟩
    rw [← hx]
    positivity
  have hden : (0 : ℝ) ≤ (xs.length : ℝ) - 1 := by
    have : (2 : ℝ) ≤ (xs.length : ℝ) := by exact_mod_cast h2
    linarith
  exact div_nonneg hsum hden

theorem sampleVar_standardize (xs : List ℝ) (h2 : 2 ≤ xs.length)
    (hs : sampleStd xs ≠ 0) : sampleVar (standardize xs) = 1 := by
  have hne : xs ≠ [] := by
    intro h
    rw [h] at h2
    simp at h2
  have hvar0 : 0 ≤ sampleVar xs := sampleVar_nonneg xs h2
  have hs2 : sampleStd xs ^ 2 = sampleVar xs := Real.sq_sqrt hvar0
  have hvarne : sampleVar xs ≠ 0 := by
    intro h
    apply hs
    rw [sampleStd, h, Real.sqrt_zero]
  have hn1 : ((xs.length : ℝ) - 1) ≠ 0 := by
    have : (2 : ℝ) ≤ (xs.length : ℝ) := by exact_mod_cast h2
    intro h
    linarith
  have hsumVar : (xs.map (fun x => (x - listMean xs) ^ 2)).sum =
      sampleVar xs * ((xs.length : ℝ) - 1) := by
    rw [sampleVar, div_mul_cancel₀ _ hn1]
  -- expand the variance of the standardized list
  rw [sampleVar, listMean_standardize xs hne, standardize_length]
  have hmap : (standardize xs).map (fun y => (y - 0) ^ 2) =
      (xs.map (fun x => (x - listMean xs) ^ 2)).map
        (fun y => y / sampleStd xs ^ 2) := by
    rw [standardize_as_two_maps, if_neg hs]
    simp only [List.map_map]
    apply List.map_congr_left
    intro x _
    simp [Function.comp, sub_zero, div_pow]
  rw [hmap, sum_map_div_const, hsumVar, hs2]
  field_simp

/-- C7: the spread is standardized with the in-window mean and sample
standard deviation; a zero standard deviation is replaced by a divisor of 1
(first conjunct — the map then subtracts the mean only, so no division by
zero ever happens); whenever the standard deviation is non-zero the
standardized series has zero mean and unit sample variance (second and
third conjuncts); and on any window with at least 60 aligned rows the
metrics record reports as its scalar `zscore` exactly the last element of
the standardized spread series (last conjunct). -/
theorem spread_standardization_spec (xs : List ℝ)
    (lstsqSlope : List ℝ → List ℝ → ℝ) (adfuller : List ℝ → Option ℝ)
    (corrcoef : List ℝ → List ℝ → Option ℝ) (ql qr : List (ℕ × ℝ))
    (window : ℕ) :
    (sampleStd xs = 0 →
      standardize xs = xs.map (fun x => (x - listMean xs) / 1)) ∧
    (2 ≤ xs.length → sampleStd xs ≠ 0 →
      listMean (standardize xs) = 0 ∧ sampleVar (standardize xs) = 1) ∧
    (ql ≠ [] → qr ≠ [] → 60 ≤ (alignRows ql qr window).length →
      (computePairWindowMetrics lstsqSlope adfuller corrcoef ql qr window).zscore =
        (standardize (spreadOf lstsqSlope (alignRows ql qr window))).getLast?) := by
  refine ⟨?_, ?_, ?_⟩
  · intro h
    simp only [standardize, if_pos h]
  · intro h2 hs
    exact ⟨listMean_standardize xs (by intro h; rw [h] at h2; simp at h2),
      sampleVar_standardize xs h2 hs⟩
  · intro h1 h2 h60
    have hno : ¬ (ql = [] ∨ qr = []) := by
      intro h; rcases h with h | h
      · exact h1 h
      · exact h2 h
    simp only [computePairWindowMetrics, if_neg hno, if_neg (not_lt.mpr h60)]

/-- A dummy slope oracle (the standardization facts hold for any). -/
def lstsqZero : List ℝ → List ℝ → ℝ := fun _ _ => 0

/-- Sixty fetched rows (dates 0..59, constant close 1). -/
noncomputable def qlBig : List (ℕ × ℝ) := (List.range 60).map (fun i => (i, 1))

/-- Witness for `spread_standardization_spec`: the series `[0, 2]` has
non-zero sample deviation, and its standardization has mean 0 and variance
1; a 60-row aligned window reports the last standardized spread value as
its z-score. -/
theorem spread_standardization_spec_witness :
    sampleStd [(0:ℝ), 2] ≠ 0 ∧ 2 ≤ ([(0:ℝ), 2]).length ∧
    listMean (standardize [(0:ℝ), 2]) = 0 ∧
    sampleVar (standardize [(0:ℝ), 2]) = 1 ∧
    qlBig ≠ [] ∧ 60 ≤ (alignRows qlBig qlBig 100).length ∧
    (computePairWindowMetrics lstsqZero (fun _ => none) (fun _ _ => none)
        qlBig qlBig 100).zscore =
      (standardize (spreadOf lstsqZero (alignRows qlBig qlBig 100))).getLast? := by
  have hvar : sampleVar [(0:ℝ), 2] = 2 := by
    norm_num [sampleVar, listMean]
  have hstd : sampleStd [(0:ℝ), 2] ≠ 0 := by
    rw [sampleStd, hvar]
    exact Real.sqrt_ne_zero'.mpr (by norm_num)
  have h := (spread_standardization_spec [(0:ℝ), 2] lstsqZero (fun _ => none)
    (fun _ _ => none) qlBig qlBig 100).2.1 (by norm_num) hstd
  have hbig : qlBig ≠ [] := by simp [qlBig]
  have h60 : 60 ≤ (alignRows qlBig qlBig 100).length := by
    rw [show (alignRows qlBig qlBig 100).length = 60 from rfl]
  have h3 := (spread_standardization_spec [(0:ℝ), 2] lstsqZero (fun _ => none)
    (fun _ _ => none) qlBig qlBig 100).2.2 hbig hbig h60
  exact ⟨hstd, by norm_num, h.1, h.2, hbig, h60, h3⟩

/-! ### C8 — half-life of mean reversion -/

theorem diffs_length (l : List ℝ) : (diffs l).length = l.length - 1 := by
  simp [diffs]

theorem dropLast_diffs_shapes (l : List ℝ) :
    l.dropLast.length = l.length - 1 ∧ (diffs l).length = l.length - 1 :=
  ⟨List.length_dropLast l, diffs_length l⟩

/-- C8: `_half_life` regresses the spread's first difference on its
one-period lag — the regressor list is `s` without its last element
(`s.shift(1).dropna()`) and the response is the consecutive-difference list
(`s.diff().dropna()`), both of length `n−1` (first conjunct); too-short
inputs give `none` (second conjunct, the source's two `< 3` floors combine
to `n < 4`); with `ρ` the regression slope, `1+ρ ≤ 0` gives `none`, and
otherwise the half-life is `−ln 2 / ln(1+ρ)`, reported exactly when
positive (third and fourth conjuncts); any reported value is positive,
comes with `1+ρ > 0` and equals `−ln 2 / ln(1+ρ)` (last conjunct).  The
function is total — the embedding has no exception path. -/
theorem halfLife_spec (lstsqSlope : List ℝ → List ℝ → ℝ) (s : List ℝ) :
    (s.dropLast.length = s.length - 1 ∧ (diffs s).length = s.length - 1) ∧
    (s.length < 4 → halfLifeFn lstsqSlope s = none) ∧
    (4 ≤ s.length → 1 + lstsqSlope s.dropLast (diffs s) ≤ 0 →
      halfLifeFn lstsqSlope s = none) ∧
    (4 ≤ s.length → 0 < 1 + lstsqSlope s.dropLast (diffs s) →
      halfLifeFn lstsqSlope s =
        (if 0 < -(Real.log 2) / Real.log (1 + lstsqSlope s.dropLast (diffs s))
         then some (-(Real.log 2) / Real.log (1 + lstsqSlope s.dropLast (diffs s)))
         else none)) ∧
    (∀ h, halfLifeFn lstsqSlope s = some h →
      0 < h ∧ 0 < 1 + lstsqSlope s.dropLast (diffs s) ∧
      h = -(Real.log 2) / Real.log (1 + lstsqSlope s.dropLast (diffs s))) := by
  refine ⟨dropLast_diffs_shapes s, ?_, ?_, ?_, ?_⟩
  · intro h4
    by_cases h3 : s.length < 3
    · simp [halfLifeFn, h3]
    · have hds : (diffs s).length < 3 := by
        rw [diffs_length]
        omega
      simp [halfLifeFn, h3, hds]
  · intro h4 hrho
    have h3 : ¬ s.length < 3 := by omega
    have hds : ¬ (diffs s).length < 3 := by
      rw [diffs_length]
      omega
    simp [halfLifeFn, h3, hds, hrho]
  · intro h4 hrho
    have h3 : ¬ s.length < 3 := by omega
    have hds : ¬ (diffs s).length < 3 := by
      rw [diffs_length]
      omega
    simp only [halfLifeFn, if_neg h3, if_neg hds, if_neg (not_le.mpr hrho)]
  · intro h hsome
    simp only [halfLifeFn] at hsome
    split_ifs at hsome with h3 hds hrho hpos
    all_goals
      first
        | exact Option.noConfusion hsome
        | (have hh := Option.some.inj hsome
           exact ⟨hh ▸ hpos, not_le.mp hrho, hh.symm⟩)

/-- The regression oracle of the C8 witness: slope `ρ = −1/2`. -/
noncomputable def lstsqHalf : List ℝ → List ℝ → ℝ := fun _ _ => -(1/2)

/-- The spread series of the C8 witness. -/
noncomputable def sFour : List ℝ := [0, 0, 0, 0]

/-- Witness for `halfLife_spec`: with slope `ρ = −1/2` on a length-4 spread,
`1+ρ = 1/2 > 0` and the half-life is `−ln 2 / ln(1/2) = 1`, which is
positive and therefore reported. -/
theorem halfLife_spec_witness :
    4 ≤ sFour.length ∧ 0 < 1 + lstsqHalf sFour.dropLast (diffs sFour) ∧
    halfLifeFn lstsqHalf sFour = some 1 := by
  have hlen : 4 ≤ sFour.length := by simp [sFour]
  have hpos : 0 < 1 + lstsqHalf sFour.dropLast (diffs sFour) := by
    norm_num [lstsqHalf]
  have h := (halfLife_spec lstsqHalf sFour).2.2.2.1 hlen hpos
  refine ⟨hlen, hpos, ?_⟩
  rw [h, show (1 + lstsqHalf sFour.dropLast (diffs sFour) : ℝ) = 2⁻¹ by
    norm_num [lstsqHalf]]
  rw [Real.log_inv, neg_div_neg_eq,
    div_self (ne_of_gt (Real.log_pos one_lt_two))]
  norm_num

end PairScan
